import Mathlib

/-!
Shallow embedding of the vector-store subsystem of the repository
(`core/ai/data/stores/product_vector_store.py` over the ORM model in
`core/ai/data/models/product_vector.py`), together with theorems checking
the specification's claims about it.

Modelling conventions:
* a table is a `List ProductVector` (rows in insertion order);
* the two pgvector distance functions (`func.cosine_distance`,
  `func.l2_distance`) are external database capabilities, so the search
  operations are parametrised by them (`DistFn`); distances are `Rat`;
* `ORDER BY distance` with no secondary key is embedded twice: as a
  deterministic execution (a stable insertion sort, `sortRows`) and as the
  relation `ValidSearchRows` describing every row order the SQL permits;
* Python exceptions become the `DBError` sum type; failures coming from the
  backing store (PostgreSQL errors) are collapsed into `DBError.storeFailure`.
-/

namespace VectorStore

/-- ORM row of table `product_vector`
(`core/ai/data/models/product_vector.py`).  The two server-side timestamp
columns are modelled as integers; they play no role in any claim. -/
structure ProductVector where
  id : Int
  product_id : Int
  seller_id : Int
  content : String
  chunk_index : Int
  title : String
  category : String
  embedding : List Rat
  created_at : Int
  updated_at : Int
  deriving Repr, DecidableEq

/-- Error kinds surfaced by the embedded operations.
`valueError`/`typeError` are Python's `ValueError`/`TypeError` with their
message; `storeFailure` is any error raised by the backing store.
The constructor `validationError` mirrors the `ValidationError` named by the
specification: no class of that name exists anywhere in the source, and no
embedded operation ever produces it; it is present only so that claims that
mention it can be stated. -/
inductive DBError where
  | valueError (msg : String)
  | typeError (msg : String)
  | storeFailure
  | validationError
  deriving Repr, DecidableEq

/-- A distance function supplied by the store (pgvector's
`cosine_distance` / `l2_distance`): external capabilities, kept abstract. -/
def DistFn : Type := List Rat → List Rat → Rat

/-- A search result row: `(ProductVector, distance)`. -/
def Row : Type := ProductVector × Rat

instance : DecidableEq Row := by
  unfold Row
  infer_instance

/-- The declared column attributes of the `ProductVector` model.  Used to
embed SQLAlchemy's declarative constructor, which raises `TypeError` on any
keyword argument that is not a mapped attribute. -/
def productVectorColumns : List String :=
  ["id", "product_id", "seller_id", "content", "chunk_index",
   "title", "category", "embedding", "created_at", "updated_at"]

/-- The keyword arguments that `ProductVectorStore.create` passes to the
`ProductVector` constructor (source lines 41–46). -/
def createKwargNames : List String :=
  ["product_id", "title", "description", "embedding"]

/-- `ProductVectorStore.create`.  Mirrors the source: it performs no
validation of its own and immediately constructs
`ProductVector(product_id=…, title=…, description=…, embedding=…)`.
SQLAlchemy's declarative constructor raises `TypeError` on the first keyword
that is not a mapped attribute.  Were the keywords valid, the flush inside
`session.begin()` would next enforce the pgvector dimension (768) client-side
(`ValueError`) and then the NOT NULL constraints on the never-supplied
columns `seller_id`/`content`/`category` at the store. -/
def create (store : List ProductVector) (product_id : Int)
    (title description : String) (embedding : List Rat) :
    Except DBError (List ProductVector) :=
  match createKwargNames.find? (fun k => !productVectorColumns.contains k) with
  | some k =>
      .error (.typeError ("'" ++ k ++ "' is an invalid keyword argument for ProductVector()"))
  | none =>
      if embedding.length = 768 then
        .error .storeFailure
      else
        .error (.valueError ("expected 768 dimensions, not " ++ toString embedding.length))

/-- Python's `str.lower()` on the ASCII range (the only characters the
metric comparison strings contain): lower-case every character. -/
def pyLower (s : String) : String := ⟨s.data.map Char.toLower⟩

/-- The `if`/`elif` distance-metric dispatch that opens both
`similarity_search` and `hybrid_search` (source lines 135–142 and 178–185):
`distance_metric.lower()` selects `cosine_distance` or `l2_distance`, any
other string raises `ValueError` before any statement is executed. -/
def pickDistanceFunc (dcos dl2 : DistFn) (metric : String) : Except DBError DistFn :=
  if pyLower metric = "cosine" then .ok dcos
  else if pyLower metric = "l2" then .ok dl2
  else .error (.valueError ("不支持的距离度量: " ++ metric))

/-- `SELECT product_vector.*, distance_func(embedding, :q) AS distance`:
every stored row paired with its distance to the query vector. -/
def scoredRows (d : DistFn) (store : List ProductVector) (q : List Rat) : List Row :=
  store.map (fun r => (r, d r.embedding q))

/-- The boolean form of the `distance <= :threshold` comparison. -/
def pLe (t : Rat) (rc : Row) : Bool := decide (rc.2 ≤ t)

/-- The optional `WHERE distance <= threshold` clause of `similarity_search`. -/
def thresholdFilter (threshold : Option Rat) (rows : List Row) : List Row :=
  match threshold with
  | none => rows
  | some t => rows.filter (pLe t)

/-- Insert a row into a distance-sorted list, before the first row of
strictly larger or equal distance.  Building block of `sortRows`. -/
def insertRow (x : Row) : List Row → List Row
  | [] => [x]
  | y :: l => if x.2 ≤ y.2 then x :: y :: l else y :: insertRow x l

/-- One deterministic execution of `ORDER BY distance_func`: a stable
insertion sort on the distance component (rows of equal distance keep their
stored relative order).  The SQL itself fixes no order among ties; the
relation `ValidSearchRows` captures that freedom. -/
def sortRows : List Row → List Row
  | [] => []
  | x :: l => insertRow x (sortRows l)

/-- `ORDER BY distance_func LIMIT :limit`: sort ascending by distance and
truncate. -/
def rankRows (rows : List Row) (limit : Nat) : List Row :=
  (sortRows rows).take limit

/-- `ProductVectorStore.similarity_search` (source lines 111–155), for one
deterministic execution of the generated SQL: metric dispatch, optional
threshold filter (`WHERE` applies before `ORDER BY`/`LIMIT`), ascending
order by distance, truncation to `limit`. -/
def similarity_search (dcos dl2 : DistFn) (store : List ProductVector)
    (query_embedding : List Rat) (distance_metric : String) (limit : Nat)
    (threshold : Option Rat) : Except DBError (List Row) :=
  match pickDistanceFunc dcos dl2 distance_metric with
  | .error e => .error e
  | .ok d => .ok (rankRows (thresholdFilter threshold (scoredRows d store query_embedding)) limit)

/-- Ordering of result rows by their distance component. -/
def distLE (a b : Row) : Prop := a.2 ≤ b.2

/-- Strict ordering of result rows by their distance component. -/
def distLT (a b : Row) : Prop := a.2 < b.2

instance : DecidableRel distLE := fun a b => inferInstanceAs (Decidable (a.2 ≤ b.2))

instance : DecidableRel distLT := fun a b => inferInstanceAs (Decidable (a.2 < b.2))

/-- All row lists the SQL generated by `similarity_search` may return: any
ascending-by-distance arrangement of the threshold-filtered scored rows,
truncated to `limit`.  The generated `ORDER BY` has no secondary key, so
rows of equal distance may appear in any relative order. -/
def ValidSearchRows (d : DistFn) (store : List ProductVector) (q : List Rat)
    (limit : Nat) (threshold : Option Rat) (res : List Row) : Prop :=
  ∃ rows : List Row, rows.Perm (thresholdFilter threshold (scoredRows d store q)) ∧
    rows.Pairwise distLE ∧ res = rows.take limit

/-- A Python value arriving in the `filter_conditions` dict of
`hybrid_search`: the ints, strings, `None` and bools the callers can pass. -/
inductive FilterValue where
  | vStr (s : String)
  | vInt (n : Int)
  | vNone
  | vBool (b : Bool)
  deriving Repr, DecidableEq

/-- Python truthiness of a filter value (`if … and value`): empty string,
`0`, `None` and `False` are falsy. -/
def FilterValue.truthy : FilterValue → Bool
  | .vStr s => !(s == "")
  | .vInt n => !(n == 0)
  | .vNone => false
  | .vBool b => b

/-- Python `str(value)`, as interpolated by the f-string `f"%{value}%"`. -/
def FilterValue.pyStr : FilterValue → String
  | .vStr s => s
  | .vInt n => toString n
  | .vNone => "None"
  | .vBool b => if b then "True" else "False"

/-- SQL equality of an integer column with a filter value.  Every claim
exercises only `vInt` here (non-integer operands would make PostgreSQL fail
to type the comparison; no claim depends on that branch). -/
def FilterValue.intEq (v : FilterValue) (col : Int) : Bool :=
  match v with
  | .vInt n => col == n
  | _ => false

/-- ASCII case-insensitive character comparison, as `ILIKE` folds case. -/
def lowerEq (a b : Char) : Bool := a.toLower == b.toLower

/-- `suffixExists f s` is true when `f` accepts some suffix of `s`
(including `s` itself and `[]`).  Drives the `%` wildcard of `likeMatches`. -/
def suffixExists (f : List Char → Bool) : List Char → Bool
  | [] => f []
  | c :: s => f (c :: s) || suffixExists f s

/-- PostgreSQL `ILIKE` pattern matching (case-insensitive `LIKE`):
`%` matches any sequence, `_` any single character, backslash escapes the
following pattern character; every other character matches itself up to
ASCII case.  A pattern ending in a bare escape is a PostgreSQL error and is
unreachable from the patterns the store builds (they end in `%`); it is
modelled as no match. -/
def likeMatches : List Char → List Char → Bool
  | [], s => s.isEmpty
  | c :: p, s =>
    if c == '%' then suffixExists (fun t => likeMatches p t) s
    else if c == '_' then
      match s with
      | [] => false
      | _ :: s1 => likeMatches p s1
    else if c == '\\' then
      match p with
      | [] => false
      | e :: p1 =>
        match s with
        | [] => false
        | d :: s1 => lowerEq e d && likeMatches p1 s1
    else
      match s with
      | [] => false
      | d :: s1 => lowerEq c d && likeMatches p s1

/-- The `title_contains` predicate of `hybrid_search`:
`ProductVector.title.ilike(f"%{value}%")`. -/
def titleLike (value : String) (r : ProductVector) : Bool :=
  likeMatches ('%' :: (value.data ++ ['%'])) r.title.data

/-- One iteration of the filter-building loop of `hybrid_search` (source
lines 195–203): a recognized key with a truthy value yields a predicate,
anything else is skipped. -/
def filterOfCond (kv : String × FilterValue) : Option (ProductVector → Bool) :=
  if kv.1 == "title_contains" && kv.2.truthy then
    some (fun r => titleLike kv.2.pyStr r)
  else if kv.1 == "product_id" && kv.2.truthy then
    some (fun r => kv.2.intEq r.product_id)
  else if kv.1 == "id" && kv.2.truthy then
    some (fun r => kv.2.intEq r.id)
  else
    none

/-- The `filters` list accumulated by the loop of `hybrid_search`. -/
def buildFilters (conds : List (String × FilterValue)) : List (ProductVector → Bool) :=
  conds.filterMap filterOfCond

/-- Whether a row passes every accumulated filter of `hybrid_search`
(`stmt.where(*filters)` combines them with AND; an empty list keeps all). -/
def hybridKeeps (conds : List (String × FilterValue)) (r : ProductVector) : Bool :=
  (buildFilters conds).all (fun f => f r)

/-- `ProductVectorStore.hybrid_search` (source lines 157–213), for one
deterministic execution of the generated SQL: metric dispatch, the
filter-condition loop (skipped when `filter_conditions` is `None` or empty,
mirroring `if filter_conditions:`), `WHERE` only when some filter was built
(mirroring `if filters:`), then ascending order by distance and truncation. -/
def hybrid_search (dcos dl2 : DistFn) (store : List ProductVector)
    (query_embedding : List Rat)
    (filter_conditions : Option (List (String × FilterValue)))
    (distance_metric : String) (limit : Nat) : Except DBError (List Row) :=
  match pickDistanceFunc dcos dl2 distance_metric with
  | .error e => .error e
  | .ok d =>
    let rows := scoredRows d store query_embedding
    let fl : List (ProductVector → Bool) :=
      match filter_conditions with
      | none => []
      | some cs => buildFilters cs
    let kept := if fl.isEmpty then rows else rows.filter (fun rc => fl.all (fun f => f rc.1))
    .ok (rankRows kept limit)

/-- `ProductVectorStore.get_all` (source lines 82–109): `SELECT count(*)`,
then `SELECT … OFFSET :offset LIMIT :limit`, with no validation of either
argument in this layer; PostgreSQL rejects a negative `OFFSET` or `LIMIT`,
which surfaces as a store failure. -/
def get_all (store : List ProductVector) (limit offset : Int) :
    Except DBError (List ProductVector × Nat) :=
  let total := store.length
  if limit < 0 ∨ offset < 0 then
    .error .storeFailure
  else
    .ok ((store.drop offset.toNat).take limit.toNat, total)

/-- `ProductVectorStore.delete_by_id` (source lines 215–227):
`DELETE FROM product_vector WHERE id = :id`, commit, return
`rowcount > 0` together with the resulting table. -/
def delete_by_id (store : List ProductVector) (id : Int) :
    Bool × List ProductVector :=
  (decide (0 < store.countP (fun r => r.id == id)),
   store.filter (fun r => !(r.id == id)))

/-- `ProductVectorStore.delete_by_product_id` (source lines 229–241):
`DELETE FROM product_vector WHERE product_id = :product_id`, commit, return
`rowcount > 0` together with the resulting table. -/
def delete_by_product_id (store : List ProductVector) (product_id : Int) :
    Bool × List ProductVector :=
  (decide (0 < store.countP (fun r => r.product_id == product_id)),
   store.filter (fun r => !(r.product_id == product_id)))

/-- The specification's notion of case-insensitive substring containment
(`titleContains`: "substring match, case-insensitive, against the record's
title").  Written from the spec's words, to be compared with the source's
`ILIKE` behaviour. -/
def specContainsCI (needle hay : String) : Prop :=
  needle.data.map Char.toLower <:+: hay.data.map Char.toLower

instance (needle hay : String) : Decidable (specContainsCI needle hay) := by
  unfold specContainsCI
  infer_instance

/-- A pattern fragment free of `ILIKE` metacharacters. -/
def plainChars (p : List Char) : Prop :=
  ∀ c ∈ p, c ≠ '%' ∧ c ≠ '_' ∧ c ≠ '\\'

instance (p : List Char) : Decidable (plainChars p) := by
  unfold plainChars
  infer_instance

/-- Concrete row used by witnesses: distance 0 from the query `[1, 0]`
under `dIndicator`. -/
def pvShoes : ProductVector :=
  ⟨1, 101, 7, "chunk", 0, "Red Shoes", "apparel", [1, 0], 0, 0⟩

/-- Concrete row used by witnesses: distance 1 from the query `[1, 0]`
under `dIndicator`. -/
def pvHat : ProductVector :=
  ⟨2, 102, 7, "chunk", 0, "Blue Hat", "apparel", [0, 1], 0, 0⟩

/-- Concrete row whose title `"abc"` contains no underscore. -/
def pvAbc : ProductVector :=
  ⟨3, 103, 7, "chunk", 0, "abc", "misc", [1, 0], 0, 0⟩

/-- Concrete row with the same embedding as `pvTwinB` (hence always at the
same distance from any query, under any distance function). -/
def pvTwinA : ProductVector :=
  ⟨1, 101, 7, "chunk", 0, "Twin A", "misc", [1, 0], 0, 0⟩

/-- Concrete row with the same embedding as `pvTwinA`. -/
def pvTwinB : ProductVector :=
  ⟨2, 102, 7, "chunk", 0, "Twin B", "misc", [1, 0], 0, 0⟩

/-- A concrete distance function for witnesses: 0 on equal vectors, 1
otherwise (every distance function ties on equal vectors; this one also
separates the unequal witness embeddings). -/
def dIndicator : DistFn := fun a b => if a = b then 0 else 1

/-! ## Lemmas about the `ILIKE` pattern matcher -/

theorem suffixExists_eq (f : List Char → Bool) (s : List Char) :
    suffixExists f s = true ↔ ∃ n, f (s.drop n) = true := by
  induction s with
  | nil =>
    simp only [suffixExists, List.drop_nil]
    exact ⟨fun h => ⟨0, h⟩, fun ⟨_, h⟩ => h⟩
  | cons c s ih =>
    simp only [suffixExists, Bool.or_eq_true, ih]
    constructor
    · rintro (h | ⟨n, h⟩)
      · exact ⟨0, h⟩
      · exact ⟨n + 1, by simpa using h⟩
    · rintro ⟨n, h⟩
      cases n with
      | zero => exact Or.inl h
      | succ n => exact Or.inr ⟨n, by simpa using h⟩

theorem likeMatches_percent (p s : List Char) :
    likeMatches ('%' :: p) s = suffixExists (fun t => likeMatches p t) s := by
  rw [likeMatches.eq_def]
  rfl

theorem likeMatches_plain_nil {c : Char} (p : List Char)
    (h1 : (c == '%') = false) (h2 : (c == '_') = false) (h3 : (c == '\\') = false) :
    likeMatches (c :: p) [] = false := by
  rw [likeMatches.eq_def]
  simp [h1, h2, h3]

theorem likeMatches_plain_cons {c : Char} (p : List Char) (d : Char) (s : List Char)
    (h1 : (c == '%') = false) (h2 : (c == '_') = false) (h3 : (c == '\\') = false) :
    likeMatches (c :: p) (d :: s) = (lowerEq c d && likeMatches p s) := by
  rw [likeMatches.eq_def]
  simp [h1, h2, h3]

theorem likeMatches_plain_close {v : List Char} (hv : plainChars v) (s : List Char) :
    likeMatches (v ++ ['%']) s = true ↔
      (v.map Char.toLower) <+: (s.map Char.toLower) := by
  induction v generalizing s with
  | nil =>
    rw [List.nil_append, likeMatches_percent, suffixExists_eq]
    simp only [List.map_nil, List.nil_prefix, iff_true]
    refine ⟨s.length, ?_⟩
    rw [likeMatches.eq_def]
    simp
  | cons c v ih =>
    have hc := hv c (List.mem_cons_self c v)
    have hv' : plainChars v := fun x hx => hv x (List.mem_cons_of_mem c hx)
    have e1 : (c == '%') = false := by simpa using hc.1
    have e2 : (c == '_') = false := by simpa using hc.2.1
    have e3 : (c == '\\') = false := by simpa using hc.2.2
    cases s with
    | nil =>
      rw [List.cons_append, likeMatches_plain_nil _ e1 e2 e3]
      simp
    | cons d s =>
      rw [List.cons_append, likeMatches_plain_cons _ _ _ e1 e2 e3]
      simp only [Bool.and_eq_true, lowerEq, beq_iff_eq, List.map_cons,
        List.cons_prefix_cons, ih hv']

theorem likeMatches_iff_infix {v s : List Char} (hv : plainChars v) :
    likeMatches ('%' :: (v ++ ['%'])) s = true ↔
      (v.map Char.toLower) <:+: (s.map Char.toLower) := by
  rw [likeMatches_percent, suffixExists_eq]
  constructor
  · rintro ⟨n, hn⟩
    have h1 := (likeMatches_plain_close hv _).mp hn
    rw [List.map_drop] at h1
    obtain ⟨t, ht⟩ := h1
    exact ⟨(s.map Char.toLower).take n, t, by
      rw [List.append_assoc, ht, List.take_append_drop]⟩
  · rintro ⟨pre, post, hw⟩
    refine ⟨pre.length, (likeMatches_plain_close hv _).mpr ?_⟩
    rw [List.map_drop, ← hw, List.append_assoc, List.drop_left]
    exact ⟨post, rfl⟩

theorem titleLike_iff {value : String} {r : ProductVector}
    (hv : plainChars value.data) :
    titleLike value r = true ↔ specContainsCI value r.title := by
  unfold titleLike specContainsCI
  exact likeMatches_iff_infix hv

/-! ## Lemmas about the distance ordering -/

theorem insertRow_perm (x : Row) (l : List Row) : (insertRow x l).Perm (x :: l) := by
  induction l with
  | nil => exact List.Perm.refl _
  | cons y l ih =>
    by_cases h : x.2 ≤ y.2
    · rw [insertRow, if_pos h]
    · rw [insertRow, if_neg h]
      exact (ih.cons y).trans (List.Perm.swap x y l)

theorem sortRows_perm (l : List Row) : (sortRows l).Perm l := by
  induction l with
  | nil => exact List.Perm.refl _
  | cons x l ih => exact (insertRow_perm x (sortRows l)).trans (ih.cons x)

theorem mem_insertRow {z x : Row} {l : List Row} :
    z ∈ insertRow x l ↔ z = x ∨ z ∈ l := by
  rw [(insertRow_perm x l).mem_iff, List.mem_cons]

theorem pairwise_insertRow {x : Row} {l : List Row} (h : l.Pairwise distLE) :
    (insertRow x l).Pairwise distLE := by
  induction l with
  | nil =>
    rw [insertRow]
    exact List.pairwise_singleton _ _
  | cons y l ih =>
    obtain ⟨h1, h2⟩ := List.pairwise_cons.mp h
    by_cases hx : x.2 ≤ y.2
    · rw [insertRow, if_pos hx]
      refine List.pairwise_cons.mpr ⟨?_, h⟩
      intro b hb
      rcases List.mem_cons.mp hb with rfl | hb
      · exact hx
      · exact le_trans hx (h1 b hb)
    · rw [insertRow, if_neg hx]
      refine List.pairwise_cons.mpr ⟨?_, ih h2⟩
      intro b hb
      rcases mem_insertRow.mp hb with rfl | hb
      · exact le_of_not_le hx
      · exact h1 b hb

theorem sortRows_pairwise (l : List Row) : (sortRows l).Pairwise distLE := by
  induction l with
  | nil => exact List.Pairwise.nil
  | cons x l ih => exact pairwise_insertRow ih

theorem filter_insertRow_of_le {t : Rat} {x : Row} {l : List Row}
    (hl : l.Pairwise distLE) (hx : x.2 ≤ t) :
    (insertRow x l).filter (pLe t) = insertRow x (l.filter (pLe t)) := by
  induction l with
  | nil => simp [insertRow, pLe, hx]
  | cons y l ih =>
    obtain ⟨h1, h2⟩ := List.pairwise_cons.mp hl
    by_cases hxy : x.2 ≤ y.2
    · rw [insertRow, if_pos hxy]
      by_cases hy : y.2 ≤ t
      · rw [List.filter_cons_of_pos (by simp [pLe, hx]),
          List.filter_cons_of_pos (by simp [pLe, hy]),
          insertRow, if_pos hxy]
      · have hl0 : l.filter (pLe t) = [] := by
          refine List.filter_eq_nil_iff.mpr fun b hb => ?_
          have : t < b.2 := lt_of_lt_of_le (lt_of_not_le hy) (h1 b hb)
          simp [pLe, not_le_of_lt this]
        rw [List.filter_cons_of_pos (by simp [pLe, hx]),
          List.filter_cons_of_neg (by simp [pLe, hy]), hl0, insertRow]
    · have hy : y.2 ≤ t := le_trans (le_of_not_le hxy) hx
      rw [insertRow, if_neg hxy]
      conv_rhs => rw [List.filter_cons_of_pos (by simp [pLe, hy])]
      conv_rhs => rw [insertRow, if_neg hxy]
      rw [List.filter_cons_of_pos (by simp [pLe, hy]), ih h2]

theorem filter_insertRow_of_gt {t : Rat} {x : Row} {l : List Row}
    (hx : ¬ x.2 ≤ t) :
    (insertRow x l).filter (pLe t) = l.filter (pLe t) := by
  induction l with
  | nil => simp [insertRow, pLe, hx]
  | cons y l ih =>
    by_cases hxy : x.2 ≤ y.2
    · rw [insertRow, if_pos hxy, List.filter_cons_of_neg (by simp [pLe, hx])]
    · rw [insertRow, if_neg hxy, List.filter_cons, List.filter_cons, ih]

theorem sortRows_filter (t : Rat) (l : List Row) :
    sortRows (l.filter (pLe t)) = (sortRows l).filter (pLe t) := by
  induction l with
  | nil => rfl
  | cons a l ih =>
    by_cases ha : a.2 ≤ t
    · rw [List.filter_cons_of_pos (by simp [pLe, ha]), sortRows, sortRows, ih,
        filter_insertRow_of_le (sortRows_pairwise l) ha]
    · rw [List.filter_cons_of_neg (by simp [pLe, ha]), sortRows, ih,
        filter_insertRow_of_gt ha]

theorem filterLe_front {t : Rat} {l : List Row} (hl : l.Pairwise distLE) :
    l.filter (pLe t) <+: l := by
  induction l with
  | nil => simp
  | cons a l ih =>
    obtain ⟨h1, h2⟩ := List.pairwise_cons.mp hl
    by_cases ha : a.2 ≤ t
    · rw [List.filter_cons_of_pos (by simp [pLe, ha])]
      exact List.cons_prefix_cons.mpr ⟨rfl, ih h2⟩
    · rw [List.filter_cons_of_neg (by simp [pLe, ha])]
      have hl0 : l.filter (pLe t) = [] := by
        refine List.filter_eq_nil_iff.mpr fun b hb => ?_
        have : t < b.2 := lt_of_lt_of_le (lt_of_not_le ha) (h1 b hb)
        simp [pLe, not_le_of_lt this]
      rw [hl0]
      exact List.nil_prefix

theorem mem_take_of_front {α : Type} {l1 l2 : List α} (h : l1 <+: l2)
    {n : Nat} {x : α} (hx : x ∈ l1.take n) : x ∈ l2.take n := by
  obtain ⟨u, rfl⟩ := h
  rw [List.take_append_eq_append_take]
  exact List.mem_append_left _ hx

theorem sorted_perm_eq_of_nodup {l1 l2 : List Row} (hp : l1.Perm l2)
    (h1 : l1.Pairwise distLE) (h2 : l2.Pairwise distLE)
    (hn : (l1.map Prod.snd).Nodup) : l1 = l2 := by
  have hn2 : (l2.map Prod.snd).Nodup := (hp.map Prod.snd).nodup hn
  have hne1 : l1.Pairwise (fun a b : Row => a.2 ≠ b.2) := List.pairwise_map.mp hn
  have hne2 : l2.Pairwise (fun a b : Row => a.2 ≠ b.2) := List.pairwise_map.mp hn2
  have hlt1 : l1.Pairwise distLT :=
    (h1.and hne1).imp (fun h => lt_of_le_of_ne h.1 h.2)
  have hlt2 : l2.Pairwise distLT :=
    (h2.and hne2).imp (fun h => lt_of_le_of_ne h.1 h.2)
  haveI : IsAntisymm Row distLT :=
    ⟨fun a b hab hba => absurd (lt_trans hab hba) (lt_irrefl _)⟩
  exact List.eq_of_perm_of_sorted hp hlt1 hlt2

theorem rankRows_valid (d : DistFn) (store : List ProductVector) (q : List Rat)
    (limit : Nat) (th : Option Rat) :
    ValidSearchRows d store q limit th
      (rankRows (thresholdFilter th (scoredRows d store q)) limit) :=
  ⟨sortRows _, sortRows_perm _, sortRows_pairwise _, rfl⟩

theorem thresholdFilter_some (t : Rat) (rows : List Row) :
    thresholdFilter (some t) rows = rows.filter (pLe t) := rfl

theorem rankRows_length_le (rows : List Row) (limit : Nat) :
    (rankRows rows limit).length ≤ limit := by
  rw [rankRows, List.length_take]
  exact min_le_left _ _

theorem similarity_search_ok {dcos dl2 : DistFn} {store : List ProductVector}
    {q : List Rat} {metric : String} {limit : Nat} {th : Option Rat} {res : List Row}
    (h : similarity_search dcos dl2 store q metric limit th = .ok res) :
    ∃ d, pickDistanceFunc dcos dl2 metric = .ok d ∧
      res = rankRows (thresholdFilter th (scoredRows d store q)) limit := by
  unfold similarity_search at h
  cases hp : pickDistanceFunc dcos dl2 metric with
  | error e => rw [hp] at h; simp at h
  | ok d =>
    rw [hp] at h
    injection h with h
    exact ⟨d, rfl, h.symm⟩

theorem hybrid_search_ok {dcos dl2 : DistFn} {store : List ProductVector}
    {q : List Rat} {conds : Option (List (String × FilterValue))}
    {metric : String} {limit : Nat} {res : List Row}
    (h : hybrid_search dcos dl2 store q conds metric limit = .ok res) :
    ∃ rows, res = rankRows rows limit := by
  unfold hybrid_search at h
  cases hp : pickDistanceFunc dcos dl2 metric with
  | error e => rw [hp] at h; simp at h
  | ok d =>
    rw [hp] at h
    injection h with h
    exact ⟨_, h.symm⟩

/-! ## Claim theorems -/

/-- Claim C1 (code_bug evidence): the claim says a `create` call with a
correct-length embedding inserts the record.  In the source, `create`
passes `description=` to the `ProductVector` constructor, whose mapped
attribute is named `content` (and `seller_id`/`content`/`category` are
required but never supplied), so every call — here with a 768-dimensional
embedding — raises `TypeError` and inserts nothing. -/
theorem C1_create_always_type_errors :
    create [] 1 "Red Shoes" "desc" (List.replicate 768 (0 : Rat)) =
      .error (.typeError "'description' is an invalid keyword argument for ProductVector()") := by
  rfl

/-- Claim C2 (counterexample): the claim says no `UnsupportedMetricError`
is raised for the metric string `"euclidean"`; the source accepts only
`"cosine"` and `"l2"` (case-insensitive) and raises `ValueError` for
everything else, including `"euclidean"`. -/
theorem C2_euclidean_rejected :
    similarity_search dIndicator dIndicator [pvShoes] [1, 0] "euclidean" 10 none =
      .error (.valueError "不支持的距离度量: euclidean") := by
  rfl

/-- Claim C2 (amended): for every metric string whose lowercasing is
outside `{cosine, l2}`, both `similarity_search` and `hybrid_search` fail
with `ValueError` before any query reaches the store (the same error for
every store); for every metric string in that set, no such error is
raised. -/
theorem C2_metric_dispatch :
    ∀ (dcos dl2 : DistFn) (store : List ProductVector) (q : List Rat)
      (metric : String) (limit : Nat) (th : Option Rat)
      (conds : Option (List (String × FilterValue))),
      (pyLower metric ≠ "cosine" → pyLower metric ≠ "l2" →
        similarity_search dcos dl2 store q metric limit th =
          .error (.valueError ("不支持的距离度量: " ++ metric)) ∧
        hybrid_search dcos dl2 store q conds metric limit =
          .error (.valueError ("不支持的距离度量: " ++ metric))) ∧
      ((pyLower metric = "cosine" ∨ pyLower metric = "l2") →
        (∃ res, similarity_search dcos dl2 store q metric limit th = .ok res) ∧
        (∃ res, hybrid_search dcos dl2 store q conds metric limit = .ok res)) := by
  intro dcos dl2 store q metric limit th conds
  constructor
  · intro hc hl
    have hp : pickDistanceFunc dcos dl2 metric =
        .error (.valueError ("不支持的距离度量: " ++ metric)) := by
      unfold pickDistanceFunc
      rw [if_neg hc, if_neg hl]
    constructor
    · unfold similarity_search
      rw [hp]
    · unfold hybrid_search
      rw [hp]
  · intro hm
    have hp : ∃ d, pickDistanceFunc dcos dl2 metric = .ok d := by
      unfold pickDistanceFunc
      rcases hm with h | h
      · rw [if_pos h]
        exact ⟨dcos, rfl⟩
      · by_cases hc : pyLower metric = "cosine"
        · rw [if_pos hc]
          exact ⟨dcos, rfl⟩
        · rw [if_neg hc, if_pos h]
          exact ⟨dl2, rfl⟩
    obtain ⟨d, hp⟩ := hp
    constructor
    · exact ⟨_, by unfold similarity_search; rw [hp]⟩
    · exact ⟨_, by unfold hybrid_search; rw [hp]⟩

/-- Witness for C2's amended theorem: the metric `"manhattan"` of the
spec's Scenario D is rejected with the `ValueError`, while `"cosine"`
succeeds. -/
theorem C2_metric_dispatch_witness :
    similarity_search dIndicator dIndicator [pvShoes] [1, 0] "manhattan" 10 none =
      .error (.valueError "不支持的距离度量: manhattan") ∧
    (∃ res, similarity_search dIndicator dIndicator [pvShoes] [1, 0] "cosine" 10 none = .ok res) :=
  ⟨((C2_metric_dispatch dIndicator dIndicator [pvShoes] [1, 0] "manhattan" 10 none none).1
      (by decide) (by decide)).1,
   ((C2_metric_dispatch dIndicator dIndicator [pvShoes] [1, 0] "cosine" 10 none none).2
      (Or.inl (by decide))).1⟩

/-- Claim C3 (counterexample): the claim asserts the subset property for
every pair of runs of the same query.  The generated `ORDER BY` carries no
secondary key, so when rows tied at equal distance straddle the `limit`
boundary the backend may return different tied rows on the two runs: with
the twin rows, `limit = 1` and thresholds `t1 = t2 = 1`, both `[TwinA]`
and `[TwinB]` are valid answers, and the first is not a subset of the
second. -/
theorem C3_ties_break_subset :
    (1 : Rat) ≤ 1 ∧
    ValidSearchRows dIndicator [pvTwinA, pvTwinB] [1, 0] 1 (some 1)
      [(pvTwinA, 0)] ∧
    ValidSearchRows dIndicator [pvTwinA, pvTwinB] [1, 0] 1 (some 1)
      [(pvTwinB, 0)] ∧
    ¬ ((pvTwinA, (0 : Rat)) ∈ [((pvTwinB : ProductVector), (0 : Rat))]) := by
  refine ⟨le_refl 1,
          ⟨[(pvTwinA, 0), (pvTwinB, 0)], ?_, ?_, rfl⟩,
          ⟨[(pvTwinB, 0), (pvTwinA, 0)], ?_, ?_, rfl⟩, ?_⟩
  · exact List.Perm.refl _
  · simp [List.pairwise_cons, distLE]
  · exact List.Perm.swap _ _ _
  · simp [List.pairwise_cons, distLE]
  · decide

/-- Claim C3 (amended): for runs that resolve equal-distance ties in the
same fixed order — here the embedded deterministic execution
`similarity_search`, ties in stored order — with all other arguments equal
and thresholds `t1 ≤ t2`, every result row at threshold `t1` also appears
in the result at threshold `t2`: the `WHERE distance <= threshold` clause
applies before `ORDER BY`/`LIMIT`, and it only removes rows whose distance
exceeds every retained one. -/
theorem C3_threshold_monotone :
    ∀ (dcos dl2 : DistFn) (store : List ProductVector) (q : List Rat)
      (metric : String) (limit : Nat) (t1 t2 : Rat) (res1 res2 : List Row),
      t1 ≤ t2 →
      similarity_search dcos dl2 store q metric limit (some t1) = .ok res1 →
      similarity_search dcos dl2 store q metric limit (some t2) = .ok res2 →
      ∀ x ∈ res1, x ∈ res2 := by
  intro dcos dl2 store q metric limit t1 t2 res1 res2 h12 h1 h2 x hx
  obtain ⟨d, hp1, hr1⟩ := similarity_search_ok h1
  obtain ⟨d2, hp2, hr2⟩ := similarity_search_ok h2
  rw [hp1] at hp2
  injection hp2 with hd
  subst hd
  have hfe : (scoredRows d store q).filter (pLe t1) =
      ((scoredRows d store q).filter (pLe t2)).filter (pLe t1) := by
    rw [List.filter_filter]
    refine List.filter_congr ?_
    intro a _
    by_cases ha : a.2 ≤ t1
    · have hb : a.2 ≤ t2 := le_trans ha h12
      simp [pLe, ha, hb]
    · simp [pLe, ha]
  have e1 : res1 = ((sortRows ((scoredRows d store q).filter (pLe t2))).filter (pLe t1)).take limit := by
    rw [hr1, thresholdFilter_some]
    unfold rankRows
    rw [hfe, sortRows_filter]
  rw [e1] at hx
  have hfr : ((sortRows ((scoredRows d store q).filter (pLe t2))).filter (pLe t1)) <+:
      sortRows ((scoredRows d store q).filter (pLe t2)) :=
    filterLe_front (sortRows_pairwise _)
  rw [hr2]
  exact mem_take_of_front hfr hx

/-- Witness for C3 at a concrete store: with thresholds `0 ≤ 1`, the single
row returned at threshold 0 also appears among the rows returned at
threshold 1. -/
theorem C3_threshold_monotone_witness :
    (0 : Rat) ≤ 1 ∧ ((pvShoes, (0 : Rat)) ∈ [((pvShoes : ProductVector), (0 : Rat)), (pvHat, 1)]) :=
  ⟨by norm_num,
   C3_threshold_monotone dIndicator dIndicator [pvShoes, pvHat] [1, 0] "cosine" 10 0 1
     [(pvShoes, 0)] [(pvShoes, 0), (pvHat, 1)] (by norm_num) rfl rfl (pvShoes, 0)
     (List.mem_singleton.mpr rfl)⟩

/-- Claim C4: every row list `similarity_search` returns is ordered by
non-decreasing distance: each adjacent pair satisfies
`distance[i] <= distance[i+1]`. -/
theorem C4_results_sorted :
    ∀ (dcos dl2 d : DistFn) (store : List ProductVector) (q : List Rat)
      (metric : String) (limit : Nat) (th : Option Rat) (res res2 : List Row),
      (similarity_search dcos dl2 store q metric limit th = .ok res →
        res.Chain' distLE) ∧
      (ValidSearchRows d store q limit th res2 → res2.Chain' distLE) := by
  intro dcos dl2 d store q metric limit th res res2
  constructor
  · intro h
    obtain ⟨d1, _, hr⟩ := similarity_search_ok h
    subst hr
    exact ((sortRows_pairwise _).sublist (List.take_sublist _ _)).chain'
  · rintro ⟨rows, _, hs, rfl⟩
    exact (hs.sublist (List.take_sublist _ _)).chain'

/-- Witness for C4 at a concrete store: the returned rows at distances
`0, 1` are adjacent-sorted. -/
theorem C4_results_sorted_witness :
    List.Chain' distLE [((pvShoes : ProductVector), (0 : Rat)), (pvHat, 1)] :=
  (C4_results_sorted dIndicator dIndicator dIndicator [pvShoes, pvHat] [1, 0] "cosine" 10 none
    [(pvShoes, 0), (pvHat, 1)] []).1 rfl

/-- Claim C5: both search modes return at most `limit` rows (the generated
SQL ends in `LIMIT :limit`). -/
theorem C5_limit_bound :
    ∀ (dcos dl2 : DistFn) (store : List ProductVector) (q : List Rat)
      (metric : String) (limit : Nat) (th : Option Rat)
      (conds : Option (List (String × FilterValue))) (res res2 : List Row),
      (similarity_search dcos dl2 store q metric limit th = .ok res →
        res.length ≤ limit) ∧
      (hybrid_search dcos dl2 store q conds metric limit = .ok res2 →
        res2.length ≤ limit) := by
  intro dcos dl2 store q metric limit th conds res res2
  constructor
  · intro h
    obtain ⟨d, _, hr⟩ := similarity_search_ok h
    subst hr
    exact rankRows_length_le _ _
  · intro h
    obtain ⟨rows, hr⟩ := hybrid_search_ok h
    subst hr
    exact rankRows_length_le _ _

/-- Witness for C5 at a concrete store, for both search modes. -/
theorem C5_limit_bound_witness :
    [((pvShoes : ProductVector), (0 : Rat)), (pvHat, 1)].length ≤ 10 ∧
    [((pvShoes : ProductVector), (0 : Rat))].length ≤ 1 :=
  ⟨(C5_limit_bound dIndicator dIndicator [pvShoes, pvHat] [1, 0] "cosine" 10 none none
      [(pvShoes, 0), (pvHat, 1)] []).1 rfl,
   (C5_limit_bound dIndicator dIndicator [pvShoes, pvHat] [1, 0] "l2" 1 none
      (some [("id", .vInt 1)]) [] [(pvShoes, 0)]).2 rfl⟩

/-- Claim C6 (counterexample): the claim says the title filter keeps
exactly the case-insensitive substring matches.  The source interpolates
the value into an `ILIKE` pattern, so the underscore in the filter value
`"_"` acts as a single-character wildcard: the row titled `"abc"` is kept
although `"_"` is not a substring of `"abc"`. -/
theorem C6_wildcard_breaks_substring :
    hybridKeeps [("title_contains", .vStr "_")] pvAbc = true ∧
    ¬ specContainsCI "_" "abc" := by
  constructor
  · rfl
  · decide

/-- Claim C6 (amended): for a title filter value that is nonempty and free
of the `ILIKE` metacharacters `%`, `_` and `\`, the filter keeps exactly
the rows whose title contains the value as a case-insensitive substring
(values with metacharacters are interpolated into the `ILIKE` pattern and
match as pattern wildcards); `product_id` and `id` filters are exact
integer matches; multiple filter conditions combine with logical AND; an
unrecognized key contributes no filter at all. -/
theorem C6_filter_semantics :
    ∀ (s : String) (n : Int) (r : ProductVector) (k : String) (v : FilterValue)
      (c1 c2 : List (String × FilterValue)),
      (s ≠ "" → plainChars s.data →
        (hybridKeeps [("title_contains", .vStr s)] r = true ↔ specContainsCI s r.title)) ∧
      (n ≠ 0 → (hybridKeeps [("product_id", .vInt n)] r = true ↔ r.product_id = n)) ∧
      (n ≠ 0 → (hybridKeeps [("id", .vInt n)] r = true ↔ r.id = n)) ∧
      (hybridKeeps (c1 ++ c2) r = (hybridKeeps c1 r && hybridKeeps c2 r)) ∧
      (k ≠ "title_contains" → k ≠ "product_id" → k ≠ "id" →
        buildFilters ((k, v) :: c1) = buildFilters c1) := by
  intro s n r k v c1 c2
  refine ⟨?_, ?_, ?_, ?_, ?_⟩
  · intro hs hv
    have ht : FilterValue.truthy (.vStr s) = true := by
      simp [FilterValue.truthy, hs]
    have hoc : filterOfCond ("title_contains", .vStr s) =
        some (fun r => titleLike s r) := by
      simp [filterOfCond, ht, FilterValue.pyStr]
    have hk : hybridKeeps [("title_contains", .vStr s)] r = titleLike s r := by
      unfold hybridKeeps buildFilters
      rw [List.filterMap_cons_some hoc, List.filterMap_nil]
      simp
    rw [hk]
    exact titleLike_iff hv
  · intro hn
    have ht : FilterValue.truthy (.vInt n) = true := by
      simp [FilterValue.truthy, hn]
    have hoc : filterOfCond ("product_id", .vInt n) =
        some (fun r => FilterValue.intEq (.vInt n) r.product_id) := by
      simp [filterOfCond, ht]
    have hk : hybridKeeps [("product_id", .vInt n)] r =
        FilterValue.intEq (.vInt n) r.product_id := by
      unfold hybridKeeps buildFilters
      rw [List.filterMap_cons_some hoc, List.filterMap_nil]
      simp
    rw [hk]
    simp [FilterValue.intEq]
  · intro hn
    have ht : FilterValue.truthy (.vInt n) = true := by
      simp [FilterValue.truthy, hn]
    have hoc : filterOfCond ("id", .vInt n) =
        some (fun r => FilterValue.intEq (.vInt n) r.id) := by
      simp [filterOfCond, ht]
    have hk : hybridKeeps [("id", .vInt n)] r =
        FilterValue.intEq (.vInt n) r.id := by
      unfold hybridKeeps buildFilters
      rw [List.filterMap_cons_some hoc, List.filterMap_nil]
      simp
    rw [hk]
    simp [FilterValue.intEq]
  · unfold hybridKeeps buildFilters
    rw [List.filterMap_append, List.all_append]
  · intro h1 h2 h3
    have e1 : (k == "title_contains") = false := beq_eq_false_iff_ne.mpr h1
    have e2 : (k == "product_id") = false := beq_eq_false_iff_ne.mpr h2
    have e3 : (k == "id") = false := beq_eq_false_iff_ne.mpr h3
    have hoc : filterOfCond (k, v) = none := by
      simp [filterOfCond, e1, e2, e3]
    unfold buildFilters
    rw [List.filterMap_cons_none hoc]

/-- Witness for C6's amended theorem: the value `"hoe"` (no metacharacters)
keeps `pvShoes` exactly when its title contains it, and the unrecognized
key `"bogus"` contributes no filter. -/
theorem C6_filter_semantics_witness :
    ((hybridKeeps [("title_contains", .vStr "hoe")] pvShoes = true ↔
        specContainsCI "hoe" pvShoes.title)) ∧
    buildFilters [("bogus", .vStr "x")] = buildFilters [] :=
  ⟨(C6_filter_semantics "hoe" 1 pvShoes "bogus" (.vStr "x") [] []).1
      (by decide) (by decide),
   (C6_filter_semantics "hoe" 1 pvShoes "bogus" (.vStr "x") [] []).2.2.2.2
      (by decide) (by decide) (by decide)⟩

/-- Claim C7: `delete_by_id` returns `true` exactly when a row with the id
existed, a second deletion of the same id returns `false` (and neither call
raises), and `delete_by_product_id` on a product id with no matching rows
returns `false`. -/
theorem C7_delete_idempotent :
    ∀ (store : List ProductVector) (x pid : Int),
      ((delete_by_id store x).1 = true ↔ ∃ r ∈ store, r.id = x) ∧
      ((delete_by_id (delete_by_id store x).2 x).1 = false) ∧
      ((∀ r ∈ store, r.product_id ≠ pid) → (delete_by_product_id store pid).1 = false) := by
  intro store x pid
  refine ⟨?_, ?_, ?_⟩
  · simp [delete_by_id, List.countP_pos_iff]
  · simp [delete_by_id, List.countP_pos_iff, List.mem_filter]
  · intro h
    simp only [delete_by_product_id, decide_eq_false_iff_not, not_lt, Nat.le_zero,
      List.countP_eq_zero]
    intro r hr
    simpa using h r hr

/-- Witness for C7 at a concrete store: deleting id 1 from `[pvShoes]`
succeeds once and reports `false` the second time; deleting an absent
product id reports `false`. -/
theorem C7_delete_idempotent_witness :
    ((delete_by_id [pvShoes] 1).1 = true) ∧
    ((delete_by_id (delete_by_id [pvShoes] 1).2 1).1 = false) ∧
    ((delete_by_product_id [pvShoes] 999).1 = false) :=
  ⟨(C7_delete_idempotent [pvShoes] 1 999).1.mpr ⟨pvShoes, List.mem_singleton.mpr rfl, rfl⟩,
   (C7_delete_idempotent [pvShoes] 1 999).2.1,
   (C7_delete_idempotent [pvShoes] 1 999).2.2 (by decide)⟩

/-- Claim C8 (counterexample): the claim says `get_all` rejects a negative
limit with `ValidationError`.  The source validates nothing; the negative
`LIMIT` is rejected by the backing store, a store failure, and no
`ValidationError` exists anywhere in the source. -/
theorem C8_no_validation_error :
    get_all [pvShoes] (-1) 0 = .error .storeFailure ∧
    DBError.storeFailure ≠ DBError.validationError := by
  exact ⟨rfl, by decide⟩

/-- Claim C8 (amended): `get_all` performs no validation of `limit` or
`offset`; negative values surface as a failure of the backing store, not a
`ValidationError` of this layer, while `limit = 0` (with non-negative
offset) returns an empty page together with the exact total row count. -/
theorem C8_get_all_behaviour :
    ∀ (store : List ProductVector) (limit offset : Int),
      (limit < 0 ∨ offset < 0 → get_all store limit offset = .error .storeFailure) ∧
      (limit = 0 → 0 ≤ offset → get_all store limit offset = .ok ([], store.length)) := by
  intro store limit offset
  constructor
  · intro h
    unfold get_all
    rw [if_pos h]
  · intro h0 hoff
    subst h0
    unfold get_all
    rw [if_neg (by push_neg; exact ⟨le_refl 0, hoff⟩)]
    simp

/-- Witness for C8's amended theorem at a concrete store. -/
theorem C8_get_all_behaviour_witness :
    get_all [pvShoes] (-1) 5 = .error .storeFailure ∧
    get_all [pvShoes] 0 0 = .ok ([], 1) :=
  ⟨(C8_get_all_behaviour [pvShoes] (-1) 5).1 (Or.inl (by norm_num)),
   (C8_get_all_behaviour [pvShoes] 0 0).2 rfl (le_refl 0)⟩

/-- Claim C9 (counterexample): the claim says ties are broken by a
deterministic secondary key.  The generated SQL orders by distance only, so
for two rows with identical embeddings (hence exactly equal distance under
any distance function) both relative orders are valid query answers, and
they differ. -/
theorem C9_tied_order_not_deterministic :
    ValidSearchRows dIndicator [pvTwinA, pvTwinB] [1, 0] 2 none
      [(pvTwinA, 0), (pvTwinB, 0)] ∧
    ValidSearchRows dIndicator [pvTwinA, pvTwinB] [1, 0] 2 none
      [(pvTwinB, 0), (pvTwinA, 0)] ∧
    [((pvTwinA : ProductVector), (0 : Rat)), (pvTwinB, 0)] ≠
      [(pvTwinB, 0), (pvTwinA, 0)] := by
  refine ⟨⟨[(pvTwinA, 0), (pvTwinB, 0)], List.Perm.refl _, ?_, rfl⟩,
          ⟨[(pvTwinB, 0), (pvTwinA, 0)], List.Perm.swap _ _ _, ?_, rfl⟩, ?_⟩
  · simp [List.pairwise_cons, distLE]
  · simp [List.pairwise_cons, distLE]
  · decide

/-- Claim C9 (amended): the query orders by distance only, with no
secondary key, so the relative order of records at exactly equal distance
is backend-chosen, not fixed by the code; when the threshold-filtered
scored rows have pairwise-distinct distances, every row order the query
may return is the same. -/
theorem C9_unique_without_ties :
    ∀ (d : DistFn) (store : List ProductVector) (q : List Rat) (limit : Nat)
      (th : Option Rat) (res1 res2 : List Row),
      ((thresholdFilter th (scoredRows d store q)).map Prod.snd).Nodup →
      ValidSearchRows d store q limit th res1 →
      ValidSearchRows d store q limit th res2 →
      res1 = res2 := by
  intro d store q limit th res1 res2 hn h1 h2
  obtain ⟨r1, hp1, hs1, he1⟩ := h1
  obtain ⟨r2, hp2, hs2, he2⟩ := h2
  have hperm : r1.Perm r2 := hp1.trans hp2.symm
  have hn1 : (r1.map Prod.snd).Nodup := (hp1.map Prod.snd).symm.nodup hn
  have hr : r1 = r2 := sorted_perm_eq_of_nodup hperm hs1 hs2 hn1
  rw [he1, he2, hr]

/-- Witness for C9's amended theorem at a concrete store with distinct
distances 0 and 1. -/
theorem C9_unique_without_ties_witness :
    [((pvShoes : ProductVector), (0 : Rat)), (pvHat, 1)] = [(pvShoes, 0), (pvHat, 1)] :=
  C9_unique_without_ties dIndicator [pvShoes, pvHat] [1, 0] 2 none _ _ (by decide)
    ⟨[(pvShoes, 0), (pvHat, 1)], List.Perm.refl _, by simp [List.pairwise_cons, distLE], rfl⟩
    ⟨[(pvShoes, 0), (pvHat, 1)], List.Perm.refl _, by simp [List.pairwise_cons, distLE], rfl⟩

/-- Claim C10: a recognized filter key whose value is falsy (`0`, `""`,
`None`, `False`) is skipped by the `and value` guard, so a condition map of
falsy-valued entries behaves exactly like passing no filters at all. -/
theorem C10_falsy_filter_values_skipped :
    ∀ (dcos dl2 : DistFn) (store : List ProductVector) (q : List Rat)
      (metric : String) (limit : Nat) (conds : List (String × FilterValue)),
      (∀ kv ∈ conds, FilterValue.truthy kv.2 = false) →
      hybrid_search dcos dl2 store q (some conds) metric limit =
        hybrid_search dcos dl2 store q none metric limit := by
  intro dcos dl2 store q metric limit conds h
  have hb : ∀ cs : List (String × FilterValue),
      (∀ kv ∈ cs, FilterValue.truthy kv.2 = false) → buildFilters cs = [] := by
    intro cs
    induction cs with
    | nil => intro _; rfl
    | cons kv cs ih =>
      intro hcs
      have ht := hcs kv (List.mem_cons_self kv cs)
      have hoc : filterOfCond kv = none := by
        simp [filterOfCond, ht]
      unfold buildFilters
      rw [List.filterMap_cons_none hoc]
      exact ih fun kv2 hk => hcs kv2 (List.mem_cons_of_mem kv hk)
  unfold hybrid_search
  cases hp : pickDistanceFunc dcos dl2 metric with
  | error e => rfl
  | ok d => simp [hb conds h]

/-- Witness for C10: four falsy-valued conditions (including the claim's
`{id: 0}` and `{titleContains: ""}`) leave the result identical to the
unfiltered search. -/
theorem C10_falsy_filter_values_skipped_witness :
    hybrid_search dIndicator dIndicator [pvShoes, pvHat] [1, 0]
        (some [("id", .vInt 0), ("title_contains", .vStr ""),
               ("product_id", .vNone), ("other", .vBool false)]) "cosine" 10 =
      hybrid_search dIndicator dIndicator [pvShoes, pvHat] [1, 0] none "cosine" 10 :=
  C10_falsy_filter_values_skipped dIndicator dIndicator [pvShoes, pvHat] [1, 0] "cosine" 10
    [("id", .vInt 0), ("title_contains", .vStr ""),
     ("product_id", .vNone), ("other", .vBool false)] (by decide)

end VectorStore
